import Mathlib

/-!
Verification of the Elkapod communication protocol layer
(`elkapod_comm/elkapod_comm_server.py`) against its specification.

The Lean definitions below are shallow embeddings of the Python source.
Functions imported from the `hexapod_protocol` module, whose source is not
part of the repository snapshot, are modelled from the specification and
marked as such in their doc comments.
-/

namespace Elkapod

/-- Big-endian byte-to-value conversion, translated from
`ElkapodCommServer._convert_bytes_to_value`: starts from `value = 0` and,
for each `(i, data)` in `enumerate(datas)`, performs
`value |= data << (len(datas) - i - 1) * 8`. -/
def convertBytesToValue (datas : List Nat) : Nat :=
  (datas.enum).foldl
    (fun value p => value ||| (p.2 <<< ((datas.length - p.1 - 1) * 8))) 0

/-- The big-endian value of a byte list, written as the structural recursion
`b :: t ↦ b * 256 ^ |t| + value t`.  This is the reference value the fold in
`convertBytesToValue` is compared against. -/
def bigEndianValue : List Nat → Nat
  | [] => 0
  | b :: t => b * 256 ^ t.length + bigEndianValue t

lemma bigEndianValue_nil : bigEndianValue [] = 0 := rfl

lemma bigEndianValue_cons (b : Nat) (t : List Nat) :
    bigEndianValue (b :: t) = b * 256 ^ t.length + bigEndianValue t := rfl

/-- Each step of the fold ORs a freshly shifted byte into an accumulator that
is a multiple of a higher power of two, so the OR is an addition. -/
lemma foldl_or_enumFrom (n : Nat) :
    ∀ (l : List Nat) (k q : Nat), (∀ b ∈ l, b < 256) → k + l.length = n →
      (List.enumFrom k l).foldl
          (fun value p => value ||| (p.2 <<< ((n - p.1 - 1) * 8)))
          (q * 2 ^ ((n - k) * 8))
        = q * 2 ^ ((n - k) * 8) + bigEndianValue l
  | [], _, _, _, _ => by simp [bigEndianValue]
  | b :: t, k, q, hb, hn => by
    have hblt : b < 256 := hb b (List.mem_cons_self b t)
    have ht : ∀ x ∈ t, x < 256 := fun x hx => hb x (List.mem_cons_of_mem b hx)
    have hn' : k + (t.length + 1) = n := by simpa using hn
    have hk1 : (k + 1) + t.length = n := by omega
    have hnk : n - k = t.length + 1 := by omega
    have hexp : (t.length + 1) * 8 = t.length * 8 + 8 := by ring
    have h256 : (2 : Nat) ^ 8 = 256 := by norm_num
    have hshift : b <<< (t.length * 8) = b * 2 ^ (t.length * 8) := by
      rw [Nat.shiftLeft_eq]
    have hblt2 : b * 2 ^ (t.length * 8) < 2 ^ ((t.length + 1) * 8) := by
      rw [hexp, pow_add, h256]
      calc b * 2 ^ (t.length * 8) < 256 * 2 ^ (t.length * 8) :=
            mul_lt_mul_of_pos_right hblt (by positivity)
        _ = 2 ^ (t.length * 8) * 256 := by ring
    have hor : q * 2 ^ ((t.length + 1) * 8) ||| b * 2 ^ (t.length * 8)
        = (q * 256 + b) * 2 ^ (t.length * 8) := by
      have hd := Nat.mul_add_lt_is_or hblt2 q
      have hq : q * 2 ^ ((t.length + 1) * 8) = 2 ^ ((t.length + 1) * 8) * q := by ring
      rw [hq, ← hd, hexp, pow_add, h256]
      ring
    have ih := foldl_or_enumFrom n t (k + 1) (q * 256 + b) ht hk1
    have hnk1' : n - (k + 1) = t.length := by omega
    rw [hnk1'] at ih
    simp only [List.enumFrom, List.foldl_cons, hnk, Nat.add_sub_cancel, hshift, hor]
    rw [ih, bigEndianValue_cons]
    have h256m : (256 : Nat) ^ t.length = 2 ^ (t.length * 8) := by
      rw [← h256, ← pow_mul, mul_comm]
    rw [h256m, hexp, pow_add, h256]
    ring

/-- The fold in the source computes exactly the big-endian value, provided
every element is a byte. -/
lemma convertBytesToValue_eq_bigEndianValue (datas : List Nat)
    (h : ∀ b ∈ datas, b < 256) :
    convertBytesToValue datas = bigEndianValue datas := by
  have key := foldl_or_enumFrom datas.length datas 0 0 h (by simp)
  simpa [convertBytesToValue, List.enum] using key

/-- The structural big-endian value agrees with the positional sum
`Σ b[i] * 256 ^ (n - 1 - i)`. -/
lemma bigEndianValue_eq_sum (l : List Nat) :
    bigEndianValue l
      = ∑ i ∈ Finset.range l.length, l.getD i 0 * 256 ^ (l.length - 1 - i) := by
  induction l with
  | nil => simp [bigEndianValue]
  | cons b t ih =>
    rw [bigEndianValue_cons, ih]
    have hlen : (b :: t).length = t.length + 1 := rfl
    rw [hlen, Finset.sum_range_succ']
    have h0 : (b :: t).getD 0 0 * 256 ^ (t.length + 1 - 1 - 0) = b * 256 ^ t.length := by
      have he : t.length + 1 - 1 - 0 = t.length := by omega
      rw [he, List.getD_cons_zero]
    have hstep : ∀ i, (b :: t).getD (i + 1) 0 * 256 ^ (t.length + 1 - 1 - (i + 1))
        = t.getD i 0 * 256 ^ (t.length - 1 - i) := by
      intro i
      have he : t.length + 1 - 1 - (i + 1) = t.length - 1 - i := by omega
      rw [he, List.getD_cons_succ]
    rw [h0]
    have hsum : ∑ i ∈ Finset.range t.length,
        (b :: t).getD (i + 1) 0 * 256 ^ (t.length + 1 - 1 - (i + 1))
        = ∑ i ∈ Finset.range t.length, t.getD i 0 * 256 ^ (t.length - 1 - i) :=
      Finset.sum_congr rfl (fun i _ => hstep i)
    rw [hsum]
    ring

/-- The big-endian value of a byte list is bounded by `256 ^ length`. -/
lemma bigEndianValue_lt (l : List Nat) (h : ∀ b ∈ l, b < 256) :
    bigEndianValue l < 256 ^ l.length := by
  induction l with
  | nil => simp [bigEndianValue]
  | cons b t ih =>
    have hb : b < 256 := h b (List.mem_cons_self b t)
    have ht : ∀ x ∈ t, x < 256 := fun x hx => h x (List.mem_cons_of_mem b hx)
    have h1 : bigEndianValue t < 256 ^ t.length := ih ht
    rw [bigEndianValue_cons]
    have hlen : (b :: t).length = t.length + 1 := rfl
    rw [hlen, pow_succ]
    have hb' : b + 1 ≤ 256 := hb
    calc b * 256 ^ t.length + bigEndianValue t
        < b * 256 ^ t.length + 256 ^ t.length := by omega
      _ = (b + 1) * 256 ^ t.length := by ring
      _ ≤ 256 * 256 ^ t.length := Nat.mul_le_mul_right _ hb'
      _ = 256 ^ t.length * 256 := by ring

/-- C2: for every byte sequence `b` of length `n` with each element in
`0..255`, the byte-to-value conversion returns the big-endian unsigned value
`Σ b[i] * 256 ^ (n - 1 - i)`. -/
theorem convert_bytes_is_big_endian_sum (bs : List Nat) (h : ∀ b ∈ bs, b < 256) :
    convertBytesToValue bs
      = ∑ i ∈ Finset.range bs.length, bs.getD i 0 * 256 ^ (bs.length - 1 - i) := by
  rw [convertBytesToValue_eq_bigEndianValue bs h, bigEndianValue_eq_sum]

/-- Witness for C2 at the concrete byte sequence `[1, 2, 3]`. -/
theorem convert_bytes_is_big_endian_sum_witness :
    (∀ b ∈ [1, 2, 3], b < 256) ∧
      convertBytesToValue [1, 2, 3]
        = ∑ i ∈ Finset.range ([1, 2, 3] : List Nat).length,
            ([1, 2, 3] : List Nat).getD i 0 * 256 ^ (([1, 2, 3] : List Nat).length - 1 - i) :=
  ⟨by decide, convert_bytes_is_big_endian_sum [1, 2, 3] (by decide)⟩

/-- C9: the byte-to-value conversion is total and returns `0` on the empty
byte sequence. -/
theorem convert_bytes_empty : convertBytesToValue [] = 0 := rfl

/-- C10: the conversion of any byte sequence with elements in `0..255` is an
exact natural number strictly below `256 ^ length`. -/
theorem convert_bytes_lt_pow (bs : List Nat) (h : ∀ b ∈ bs, b < 256) :
    convertBytesToValue bs < 256 ^ bs.length := by
  rw [convertBytesToValue_eq_bigEndianValue bs h]
  exact bigEndianValue_lt bs h

/-- Witness for C10 at the concrete byte sequence `[255, 255]`. -/
theorem convert_bytes_lt_pow_witness :
    (∀ b ∈ [255, 255], b < 256) ∧
      convertBytesToValue [255, 255] < 256 ^ ([255, 255] : List Nat).length :=
  ⟨by decide, convert_bytes_lt_pow [255, 255] (by decide)⟩

/-- Counterexample to C7: a 9-byte sequence is longer than any 64-bit integer
type can hold, yet the conversion does not fail: the accumulator in the source
is an arbitrary-precision integer, so the conversion is defined and returns
the exact unsigned value. -/
theorem convert_bytes_no_overflow_counterexample :
    convertBytesToValue (List.replicate 9 255) = 2 ^ 72 - 1 := by decide

/-- Amended C7: the byte-to-value decode is defined for byte sequences of
every length, including those longer than 8 bytes, and still returns the
exact big-endian value; it never raises `OverflowError` because the
accumulator is an arbitrary-precision integer. -/
theorem convert_bytes_total_beyond_width (bs : List Nat)
    (h : ∀ b ∈ bs, b < 256) (_hlen : 8 < bs.length) :
    convertBytesToValue bs = bigEndianValue bs :=
  convertBytesToValue_eq_bigEndianValue bs h

/-- Witness for the amended C7 at the 9-byte sequence of `255`s. -/
theorem convert_bytes_total_beyond_width_witness :
    (∀ b ∈ List.replicate 9 255, b < 256) ∧ 8 < (List.replicate 9 (255 : Nat)).length ∧
      convertBytesToValue (List.replicate 9 255) = bigEndianValue (List.replicate 9 255) :=
  ⟨by decide, by decide,
    convert_bytes_total_beyond_width (List.replicate 9 255) (by decide) (by decide)⟩

/-- Kinematic-to-servo angle translation from `_leg_frame_callback`
(`angles[0] += 90; angles[1] += 90; angles[2] *= -1`), performed on the
message's angle list before fixed-point splitting; Python's IndexError on a
too-short list is modelled as `none`. -/
def transformAngles (angles : List ℚ) : Option (List ℚ) :=
  match angles.get? 0 with
  | none => none
  | some a0 =>
    let s0 := angles.set 0 (a0 + 90)
    match s0.get? 1 with
    | none => none
    | some a1 =>
      let s1 := s0.set 1 (a1 + 90)
      match s1.get? 2 with
      | none => none
      | some a2 => some (s1.set 2 (a2 * (-1)))

/-- Claim C1: a leg frame with kinematic angles `[a0, a1, a2]` hands the servo
angles `[a0 + 90, a1 + 90, -a2]` to the fixed-point split; in particular
`[10, -20, 30]` becomes `[100, 70, -30]`. -/
theorem leg_angles_transform (a0 a1 a2 : ℚ) :
    transformAngles [a0, a1, a2] = some [a0 + 90, a1 + 90, -a2]
    ∧ transformAngles [10, -20, 30] = some [100, 70, -30] := by
  constructor
  · simp [transformAngles, mul_neg_one]
  · norm_num [transformAngles]

/-- A successful angle transform preserves the length of the angle list. -/
lemma transformAngles_length {l l' : List ℚ} (h : transformAngles l = some l') :
    l'.length = l.length := by
  unfold transformAngles at h
  split at h
  · exact Option.noConfusion h
  · dsimp only at h
    split at h
    · exact Option.noConfusion h
    · split at h
      · exact Option.noConfusion h
      · injection h with h'
        subst h'
        simp [List.length_set]

/-- Frame kinds of the protocol (the `FrameType` enumeration of
`hexapod_protocol`). -/
inductive FrameType where
  | INFO
  | ADC
  | TEMPERATURE
  | ONE_LEG
deriving DecidableEq

/-- Modelled from the spec: the numeric tag byte of each frame kind
(`FrameType.value` of the `hexapod_protocol` module, whose source is not in
the repository snapshot); the spec fixes only that each kind has one tag. -/
def FrameType.value : FrameType → Nat
  | .INFO => 1
  | .ONE_LEG => 2
  | .ADC => 3
  | .TEMPERATURE => 4

/-- Modelled from the spec: `FRAME_LENGTHS_TRANSMIT` of `hexapod_protocol`.
Adc and Temperature transmit payloads are the two bytes `[length, tag]`, a
OneLeg payload is `[leg id, 3 opcodes, 3 integer parts, 3 fractional parts]`
(10 bytes), and the Info payload is a fixed marker sequence whose length the
table must match. -/
def FRAME_LENGTHS_TRANSMIT : FrameType → Nat
  | .INFO => 2
  | .ADC => 2
  | .TEMPERATURE => 2
  | .ONE_LEG => 10

/-- Modelled from the spec: `FRAME_LENGTHS_RECEIVE` of `hexapod_protocol`.
The spec fixes only that each kind has one positive receive length, that a
Temperature response has a 2-byte header before the raw count and an Adc
response a 3-byte header, and that an Info response carries a marker byte and
the major and minor version; the concrete counts here are representative. -/
def FRAME_LENGTHS_RECEIVE : FrameType → Nat
  | .INFO => 4
  | .ADC => 5
  | .TEMPERATURE => 4
  | .ONE_LEG => 1

/-- Modelled from the spec: `INFO_FRAME_LIST` of `hexapod_protocol`, the fixed
static marker/request sequence of an Info exchange; its length equals the Info
transmit length of the catalogue. -/
def INFO_FRAME_LIST : List Nat :=
  [FRAME_LENGTHS_TRANSMIT FrameType.INFO, FrameType.value FrameType.INFO]

/-- One observable operation on the SPI bus. -/
inductive SpiOp where
  | write (bs : List Nat)
  | read (n : Nat)
deriving DecidableEq

/-- Translation of `_send_data`: write the single announced length byte with
`writebytes2([nbytes])`, then write the payload with
`writebytes2(bytes_to_be_send)`. -/
def send_data (nbytes : Nat) (bytesToBeSend : List Nat) : List SpiOp :=
  [SpiOp.write [nbytes], SpiOp.write bytesToBeSend]

/-- Modelled from the spec: `split_to_integer_and_float_parts` of
`hexapod_protocol` — the integer part is the angle truncated toward zero and
the fractional byte is `round(|angle - integer_part| * 256)` clamped to
`[0, 255]`. -/
def split_to_integer_and_float_parts (a : ℚ) : Int × Nat :=
  let ip : Int := if 0 ≤ a then ⌊a⌋ else ⌈a⌉
  let fp : Nat := min 255 (round (|a - (ip : ℚ)| * 256)).toNat
  (ip, fp)

/-- Modelled from the spec: `one_leg_frame` of `hexapod_protocol` — the wire
payload is `[leg id, opcodes..., integer parts..., fractional parts...]`,
field-major; a command whose sequences do not all have the per-leg servo
count 3 or whose integer parts do not fit the wire byte range is rejected
(the EncodingPreconditionError of the spec) before any frame is produced. -/
def one_leg_frame (legId : Nat) (opCodes : List Nat) (intParts : List Int)
    (floatParts : List Nat) : Option (List Nat) :=
  if opCodes.length = 3 ∧ intParts.length = 3 ∧ floatParts.length = 3
      ∧ ∀ p ∈ intParts, 0 ≤ p ∧ p < 256
  then some (legId :: (opCodes ++ intParts.map Int.toNat ++ floatParts))
  else none

/-- One leg frame message (an element of the `LegFrames` message consumed by
`_leg_frame_callback`). -/
structure LegFrame where
  leg_nb : Nat
  servo_op_codes : List Nat
  servo_angles : List ℚ

/-- The per-frame body of `_leg_frame_callback`: translate the angles to servo
ranges, split each angle into fixed-point parts, build the one-leg frame and
send it; `none` models an IndexError or an encoder precondition rejection
occurring before `_send_data` is reached. -/
def leg_frame_callback_one (frame : LegFrame) : Option (List SpiOp) :=
  match transformAngles frame.servo_angles with
  | none => none
  | some angles =>
    let parts := angles.map split_to_integer_and_float_parts
    match one_leg_frame frame.leg_nb frame.servo_op_codes
        (parts.map Prod.fst) (parts.map Prod.snd) with
    | none => none
    | some message2 =>
      some (send_data (FRAME_LENGTHS_TRANSMIT FrameType.ONE_LEG) message2)

/-- Bus trace of `get_hhc_info`: announce the Info transmit length, write the
Info request payload, read the Info receive length. -/
def get_hhc_info_trace : List SpiOp :=
  send_data (FRAME_LENGTHS_TRANSMIT FrameType.INFO) INFO_FRAME_LIST
    ++ [SpiOp.read (FRAME_LENGTHS_RECEIVE FrameType.INFO)]

/-- Bus trace of `get_adc_info`: announce the Adc transmit length, write the
`[length, tag]` payload, read the Adc receive length. -/
def get_adc_info_trace : List SpiOp :=
  send_data (FRAME_LENGTHS_TRANSMIT FrameType.ADC)
      [FRAME_LENGTHS_TRANSMIT FrameType.ADC, FrameType.value FrameType.ADC]
    ++ [SpiOp.read (FRAME_LENGTHS_RECEIVE FrameType.ADC)]

/-- Bus trace of `get_temperature_info`: announce the Temperature transmit
length, write the `[length, tag]` payload, read the Temperature receive
length. -/
def get_temperature_info_trace : List SpiOp :=
  send_data (FRAME_LENGTHS_TRANSMIT FrameType.TEMPERATURE)
      [FRAME_LENGTHS_TRANSMIT FrameType.TEMPERATURE,
       FrameType.value FrameType.TEMPERATURE]
    ++ [SpiOp.read (FRAME_LENGTHS_RECEIVE FrameType.TEMPERATURE)]

/-- The temperature in degrees Celsius published by `get_temperature_info` as
a function of the received response bytes: the big-endian value of `data[2:]`
divided by 1000. -/
def temperature_from_response (data : List Nat) : ℚ :=
  (convertBytesToValue (data.drop 2) : ℚ) / 1000

/-- The voltage reported by `get_adc_info` as a function of the received
response bytes: `(value(data[3:]) / 4096) * 3.3`. -/
def voltage_from_response (data : List Nat) : ℚ :=
  ((convertBytesToValue (data.drop 3) : ℚ) / 4096) * (33 / 10)

/-- Claim C4: the reported temperature in degrees Celsius is the big-endian
value of the response bytes after the fixed 2-byte header, divided by 1000;
in particular a raw count of 23456 yields 23.456 °C. -/
theorem temperature_reported (data : List Nat) (h : ∀ b ∈ data, b < 256) :
    temperature_from_response data = (bigEndianValue (data.drop 2) : ℚ) / 1000
    ∧ temperature_from_response [0, 0, 91, 160] = 23456 / 1000 := by
  constructor
  · unfold temperature_from_response
    rw [convertBytesToValue_eq_bigEndianValue]
    intro b hb
    exact h b (List.mem_of_mem_drop hb)
  · have hc : convertBytesToValue [91, 160] = 23456 := by decide
    norm_num [temperature_from_response, hc]

/-- Witness for C4 at a response carrying the raw count 23456. -/
theorem temperature_reported_witness :
    (∀ b ∈ [0, 0, 91, 160], b < 256) ∧
      (temperature_from_response [0, 0, 91, 160]
          = (bigEndianValue (([0, 0, 91, 160] : List Nat).drop 2) : ℚ) / 1000
        ∧ temperature_from_response [0, 0, 91, 160] = 23456 / 1000) :=
  ⟨by decide, temperature_reported [0, 0, 91, 160] (by decide)⟩

/-- Claim C5: the reported voltage is the big-endian value of the trailing
response bytes divided by 4096 and multiplied by 3.3; in particular a raw ADC
count of 2048 yields 1.65 V. -/
theorem voltage_reported (data : List Nat) (h : ∀ b ∈ data, b < 256) :
    voltage_from_response data = ((bigEndianValue (data.drop 3) : ℚ) / 4096) * (33 / 10)
    ∧ voltage_from_response [0, 0, 0, 8, 0] = 33 / 20 := by
  constructor
  · unfold voltage_from_response
    rw [convertBytesToValue_eq_bigEndianValue]
    intro b hb
    exact h b (List.mem_of_mem_drop hb)
  · have hc : convertBytesToValue [8, 0] = 2048 := by decide
    norm_num [voltage_from_response, hc]

/-- Witness for C5 at a response carrying the raw count 2048. -/
theorem voltage_reported_witness :
    (∀ b ∈ [0, 0, 0, 8, 0], b < 256) ∧
      (voltage_from_response [0, 0, 0, 8, 0]
          = ((bigEndianValue (([0, 0, 0, 8, 0] : List Nat).drop 3) : ℚ) / 4096) * (33 / 10)
        ∧ voltage_from_response [0, 0, 0, 8, 0] = 33 / 20) :=
  ⟨by decide, voltage_reported [0, 0, 0, 8, 0] (by decide)⟩

/-- Claim C3: every exchange writes the one-byte length announcement equal to
the catalogue transmit length, then the payload whose byte count equals the
announced length, then — for Info, Adc and Temperature — reads exactly the
catalogue receive length, in that order with nothing in between; a OneLeg
exchange writes the announcement and payload only. -/
theorem session_exchange_shape :
    (∃ p, get_hhc_info_trace
        = [SpiOp.write [FRAME_LENGTHS_TRANSMIT FrameType.INFO], SpiOp.write p,
           SpiOp.read (FRAME_LENGTHS_RECEIVE FrameType.INFO)]
        ∧ p.length = FRAME_LENGTHS_TRANSMIT FrameType.INFO)
    ∧ (∃ p, get_adc_info_trace
        = [SpiOp.write [FRAME_LENGTHS_TRANSMIT FrameType.ADC], SpiOp.write p,
           SpiOp.read (FRAME_LENGTHS_RECEIVE FrameType.ADC)]
        ∧ p.length = FRAME_LENGTHS_TRANSMIT FrameType.ADC)
    ∧ (∃ p, get_temperature_info_trace
        = [SpiOp.write [FRAME_LENGTHS_TRANSMIT FrameType.TEMPERATURE], SpiOp.write p,
           SpiOp.read (FRAME_LENGTHS_RECEIVE FrameType.TEMPERATURE)]
        ∧ p.length = FRAME_LENGTHS_TRANSMIT FrameType.TEMPERATURE)
    ∧ ∀ frame ops, leg_frame_callback_one frame = some ops →
        ∃ p, ops = [SpiOp.write [FRAME_LENGTHS_TRANSMIT FrameType.ONE_LEG], SpiOp.write p]
          ∧ p.length = FRAME_LENGTHS_TRANSMIT FrameType.ONE_LEG := by
  refine ⟨⟨INFO_FRAME_LIST, by decide, by decide⟩,
    ⟨[FRAME_LENGTHS_TRANSMIT FrameType.ADC, FrameType.value FrameType.ADC],
      by decide, by decide⟩,
    ⟨[FRAME_LENGTHS_TRANSMIT FrameType.TEMPERATURE,
        FrameType.value FrameType.TEMPERATURE], by decide, by decide⟩, ?_⟩
  intro frame ops hops
  rcases htr : transformAngles frame.servo_angles with _ | angles
  · rw [leg_frame_callback_one, htr] at hops
    exact Option.noConfusion hops
  · rw [leg_frame_callback_one, htr] at hops
    dsimp only at hops
    rcases hmsg : one_leg_frame frame.leg_nb frame.servo_op_codes
        ((angles.map split_to_integer_and_float_parts).map Prod.fst)
        ((angles.map split_to_integer_and_float_parts).map Prod.snd)
      with _ | message2
    · rw [hmsg] at hops
      exact Option.noConfusion hops
    · rw [hmsg] at hops
      injection hops with hops'
      subst hops'
      refine ⟨message2, rfl, ?_⟩
      unfold one_leg_frame at hmsg
      split at hmsg
      · rename_i hcond
        obtain ⟨hop, hint, hflt, -⟩ := hcond
        injection hmsg with hmsg'
        subst hmsg'
        have h3 : angles.length = 3 := by simpa using hint
        simp only [List.length_cons, List.length_append, List.length_map, hop, h3,
          FRAME_LENGTHS_TRANSMIT]
      · exact Option.noConfusion hmsg

/-- Concrete evaluation of the leg-frame path on a well-formed frame. -/
lemma leg_frame_callback_one_example :
    leg_frame_callback_one ⟨1, [0, 0, 0], [0, 0, 0]⟩
      = some [SpiOp.write [10], SpiOp.write [1, 0, 0, 0, 90, 90, 0, 0, 0, 0]] := by
  have htr : transformAngles [0, 0, 0] = some [90, 90, 0] := by
    norm_num [transformAngles]
  have hsp90 : split_to_integer_and_float_parts 90 = (90, 0) := by
    norm_num [split_to_integer_and_float_parts]
  have hsp0 : split_to_integer_and_float_parts 0 = (0, 0) := by
    norm_num [split_to_integer_and_float_parts]
  simp only [leg_frame_callback_one, htr, List.map_cons, List.map_nil, hsp90, hsp0]
  norm_num [one_leg_frame, send_data, FRAME_LENGTHS_TRANSMIT]
  rfl

/-- Witness for C3's OneLeg conjunct at a concrete, well-formed leg frame. -/
theorem session_exchange_shape_witness :
    ∃ p, [SpiOp.write [10], SpiOp.write [1, 0, 0, 0, 90, 90, 0, 0, 0, 0]]
        = [SpiOp.write [FRAME_LENGTHS_TRANSMIT FrameType.ONE_LEG], SpiOp.write p]
      ∧ p.length = FRAME_LENGTHS_TRANSMIT FrameType.ONE_LEG :=
  session_exchange_shape.2.2.2 ⟨1, [0, 0, 0], [0, 0, 0]⟩
    [SpiOp.write [10], SpiOp.write [1, 0, 0, 0, 90, 90, 0, 0, 0, 0]]
    leg_frame_callback_one_example

/-- An angle whose integer part fits the wire byte range. -/
def representableAngle (a : ℚ) : Prop :=
  0 ≤ (split_to_integer_and_float_parts a).1
    ∧ (split_to_integer_and_float_parts a).1 < 256

/-- Claim C6: a leg command whose opcode and angle sequences have mismatched
lengths, or one of whose transformed angles falls outside the representable
range, is rejected before any bytes are written to the bus: no length
announcement and no payload are sent for that frame. -/
theorem leg_command_precondition_rejected (frame : LegFrame)
    (h : frame.servo_op_codes.length ≠ frame.servo_angles.length ∨
      ∃ a ∈ (transformAngles frame.servo_angles).getD [], ¬ representableAngle a) :
    leg_frame_callback_one frame = none := by
  rcases htr : transformAngles frame.servo_angles with _ | angles
  · simp [leg_frame_callback_one, htr]
  · rw [htr, Option.getD_some] at h
    have hlen := transformAngles_length htr
    simp only [leg_frame_callback_one, htr]
    suffices hfl : one_leg_frame frame.leg_nb frame.servo_op_codes
        ((angles.map split_to_integer_and_float_parts).map Prod.fst)
        ((angles.map split_to_integer_and_float_parts).map Prod.snd) = none by
      rw [hfl]
    unfold one_leg_frame
    apply if_neg
    rintro ⟨hop, hint, -, hall⟩
    have h3 : angles.length = 3 := by simpa using hint
    rcases h with hmis | ⟨a, ha, hbad⟩
    · exact hmis (by omega)
    · refine hbad ?_
      have hmem : (split_to_integer_and_float_parts a).1
          ∈ (angles.map split_to_integer_and_float_parts).map Prod.fst := by
        simp only [List.mem_map]
        exact ⟨split_to_integer_and_float_parts a, ⟨a, ha, rfl⟩, rfl⟩
      exact hall _ hmem

/-- Witness for C6 at a frame with two opcodes and three angles. -/
theorem leg_command_precondition_rejected_witness :
    leg_frame_callback_one ⟨1, [1, 2], [0, 0, 0]⟩ = none :=
  leg_command_precondition_rejected ⟨1, [1, 2], [0, 0, 0]⟩ (Or.inl (by decide))

/-- Local protocol version (`hexapod_protocol.__version__`); the spec's
Scenario A fixes the local version at (1, 0). -/
def localProtocolVersion : Nat × Nat := (1, 0)

/-- The four protocol exceptions declared in
`hexapod_protocol_exceptions` and caught by `get_hhc_info`. -/
inductive InfoCheckError where
  | malformedInfoFrame
  | incompatibleVersion (major minor : Nat)
  | oldVersionWarning (major minor : Nat)
  | newVersionWarning (major minor : Nat)
deriving DecidableEq

/-- Modelled from the spec: `check_info_frame` of `hexapod_protocol` — a
response whose byte count differs from the Info receive length or whose
leading marker byte is wrong is rejected as malformed; otherwise the remote
(major, minor) pair is read at fixed offsets and classified against the local
version: incompatible on a major mismatch, an older/newer warning on a minor
mismatch, success on an exact match. -/
def check_info_frame (data : List Nat) : Except InfoCheckError Unit :=
  if data.length ≠ FRAME_LENGTHS_RECEIVE FrameType.INFO then
    .error .malformedInfoFrame
  else if data.getD 0 0 ≠ FrameType.value FrameType.INFO then
    .error .malformedInfoFrame
  else
    let major := data.getD 1 0
    let minor := data.getD 2 0
    if major ≠ localProtocolVersion.1 then
      .error (.incompatibleVersion major minor)
    else if minor < localProtocolVersion.2 then
      .error (.oldVersionWarning major minor)
    else if localProtocolVersion.2 < minor then
      .error (.newVersionWarning major minor)
    else
      .ok ()

/-- Severity of the log message emitted for one info/version check. -/
inductive LogLevel where
  | info
  | error
  | warning
deriving DecidableEq

/-- The body of `get_hhc_info` after the response is read: run
`check_info_frame` under the source's try/except, logging success at info
level, Malformed and IncompatibleVersion errors at error level and the
Old/New version warnings at warning level.  The result keeps the `Except`
channel so that an uncaught protocol exception would surface as `.error`. -/
def get_hhc_info_log (data : List Nat) : Except InfoCheckError LogLevel :=
  match check_info_frame data with
  | .ok _ => .ok .info
  | .error .malformedInfoFrame => .ok .error
  | .error (.incompatibleVersion _ _) => .ok .error
  | .error (.oldVersionWarning _ _) => .ok .warning
  | .error (.newVersionWarning _ _) => .ok .warning

/-- Claim C8: for every INFO response, the info/version check turns each
terminal classification into a logged message — success at info level,
Malformed and IncompatibleVersion at error level, the two version warnings at
warning level — and never lets any of the four protocol exceptions propagate
out of the check. -/
theorem info_check_never_propagates (data : List Nat) :
    (∃ lvl, get_hhc_info_log data = .ok lvl)
    ∧ (check_info_frame data = .ok () → get_hhc_info_log data = .ok .info)
    ∧ (check_info_frame data = .error .malformedInfoFrame →
        get_hhc_info_log data = .ok .error)
    ∧ (∀ mj mn, check_info_frame data = .error (.incompatibleVersion mj mn) →
        get_hhc_info_log data = .ok .error)
    ∧ (∀ mj mn, check_info_frame data = .error (.oldVersionWarning mj mn) →
        get_hhc_info_log data = .ok .warning)
    ∧ (∀ mj mn, check_info_frame data = .error (.newVersionWarning mj mn) →
        get_hhc_info_log data = .ok .warning) := by
  refine ⟨?_, ?_, ?_, ?_, ?_, ?_⟩
  · unfold get_hhc_info_log
    rcases check_info_frame data with e | u
    · cases e
      · exact ⟨.error, rfl⟩
      · exact ⟨.error, rfl⟩
      · exact ⟨.warning, rfl⟩
      · exact ⟨.warning, rfl⟩
    · exact ⟨.info, rfl⟩
  · intro hc
    simp [get_hhc_info_log, hc]
  · intro hc
    simp [get_hhc_info_log, hc]
  · intro mj mn hc
    simp [get_hhc_info_log, hc]
  · intro mj mn hc
    simp [get_hhc_info_log, hc]
  · intro mj mn hc
    simp [get_hhc_info_log, hc]

/-- Witness for C8 at the empty response, which is malformed and is logged at
error level without an exception escaping. -/
theorem info_check_never_propagates_witness :
    get_hhc_info_log [] = .ok .error :=
  (info_check_never_propagates []).2.2.1 rfl

end Elkapod
